import Mathlib

/-!
Verification development for the resume-builder repository.

The repository's scripts build DOCX documents by appending paragraphs and
runs to table cells, and `convert_to_pdf.py` drives a fallback chain of
DOCX-to-PDF converters.  This file gives a shallow embedding of the
document-building block functions and of the converter's control flow, and
proves the specification's claims about them.

Conventions of the embedding:
* Python strings are modelled as `List Char`.
* A run is modelled by `DRun`: its text content, bold flag and no-break
  flag.  Font name, font size and colour are styling constants that no
  verified property mentions, so they are projected away except where a
  claim forces them to be kept (`SidebarHeaderOut.fontSizeCentiPt`).
* Lengths produced by `docx.shared.Inches(x)` are kept in EMU
  (`x * 914400`); inputs are given in hundredths of an inch so that the
  fractional constants of the source (`2.2`, `5.3`, `1.5`, ...) stay exact.
* Filesystem facts (`os.path.exists`) and external processes are supplied
  as explicit environment parameters, so every function is total; "the
  call does not raise" is expressed by the function returning its result
  for every environment.
-/

/-- A text or image run, as appended to a paragraph.
`text content bold noBreak` models `p.add_run(content)` with the
corresponding `run.bold` / `w:noBreak` settings; `image path` models
`p.add_run()` followed by a successful `add_picture(path)`; `emptyR`
models a run that was appended but whose `add_picture` raised (the
exception is swallowed, leaving an empty run in the paragraph). -/
inductive DRun where
  | text (content : List Char) (bold : Bool) (noBreak : Bool)
  | image (path : String)
  | emptyR
  deriving DecidableEq, Repr

/-- Embedding of `docx.shared.Inches` in EMU, with the input in hundredths of an inch:
`Inches(x) = x * 914400` EMU, so `inchesEMU (100*x) = x * 914400`. -/
def inchesEMU (centi : Int) : Int := centi * 9144

/-- Embedding of Python's `text.split('**')`: split at each (non-overlapping,
leftmost-first) occurrence of the two-character delimiter.  Like Python's
`split`, it keeps empty segments and returns `[text]` when the delimiter
does not occur. -/
def splitBB : List Char → List (List Char)
  | [] => [[]]
  | '*' :: '*' :: rest => [] :: splitBB rest
  | c :: rest =>
    match splitBB rest with
    | [] => [[c]]
    | s :: ss => (c :: s) :: ss

/-- Embedding of Python's `'**' in text`: the two-character delimiter
occurs somewhere in the string. -/
def hasBB : List Char → Bool
  | [] => false
  | '*' :: '*' :: _ => true
  | _ :: rest => hasBB rest

/-- The run list emitted by the `for i, part in enumerate(parts)` loop of
`add_compact_bullet` (create_resume_twocolumn3.py): even-indexed parts are
emitted as plain black runs when non-empty, odd-indexed parts are emitted
(bold, accent-coloured) unconditionally. -/
def compactSegs : Nat → List (List Char) → List DRun
  | _, [] => []
  | i, part :: rest =>
    (if i % 2 = 0 then
      (if part ≠ [] then [DRun.text part false false] else [])
     else [DRun.text part true false]) ++ compactSegs (i + 1) rest

/-- Embedding of `add_compact_bullet(cell, text)` of create_resume_twocolumn3.py,
as the sequence of runs appended to the new paragraph: a bold bullet
glyph run, then either the `'**'`-delimited segments or the whole text as
one plain run. -/
def add_compact_bullet (text : List Char) : List DRun :=
  DRun.text ['•', ' '] true false ::
    (if hasBB text then compactSegs 0 (splitBB text)
     else [DRun.text text false false])

/-- The run list emitted by the segment loop of `add_bullet`
(create_resume_rajnish_template.py): every non-empty part is emitted,
bold exactly when its index is odd; empty parts are skipped. -/
def bulletSegs : Nat → List (List Char) → List DRun
  | _, [] => []
  | i, part :: rest =>
    (if part ≠ [] then [DRun.text part (i % 2 == 1) false] else []) ++
      bulletSegs (i + 1) rest

/-- Embedding of `add_bullet(cell, text, size)` of create_resume_rajnish_template.py,
as the sequence of runs appended to the new paragraph. -/
def add_bullet (text : List Char) : List DRun :=
  DRun.text ['•', ' '] true false ::
    (if hasBB text then bulletSegs 0 (splitBB text)
     else [DRun.text text false false])

/-- Spec-side segmenter, following the specification's words: "split the
text on a two-character delimiter, treat even-indexed segments as plain,
odd-indexed as emphasized".  Each segment is paired with its emphasis. -/
def specSegsAux : Nat → List (List Char) → List (List Char × Bool)
  | _, [] => []
  | i, part :: rest => (part, i % 2 == 1) :: specSegsAux (i + 1) rest

/-- Spec-side segmentation of a bullet string: the `'**'`-split segments,
each tagged with the emphasis dictated by the parity of its index. -/
def specSegments (text : List Char) : List (List Char × Bool) :=
  specSegsAux 0 (splitBB text)

-- Bridge facts between `hasBB` and `splitBB`.

theorem splitBB_ne_nil (l : List Char) : splitBB l ≠ [] := by
  induction l using splitBB.induct <;> simp_all [splitBB]

theorem splitBB_of_hasBB_eq_false {l : List Char} (h : hasBB l = false) :
    splitBB l = [l] := by
  induction l using hasBB.induct <;> simp_all [splitBB, hasBB]

theorem hasBB_of_length_ne_one {l : List Char}
    (h : (splitBB l).length ≠ 1) : hasBB l = true := by
  by_contra hc
  simp only [Bool.not_eq_true] at hc
  rw [splitBB_of_hasBB_eq_false hc] at h
  simp at h

-- The code's segment loops refine the spec-side segmentation: they emit
-- exactly the spec's parity-styled segments, minus the empty segments each
-- loop skips.

theorem compactSegs_eq_spec (parts : List (List Char)) :
    ∀ i, compactSegs i parts
      = (specSegsAux i parts).filterMap
          (fun s => if s.1 = [] ∧ s.2 = false then none
                    else some (DRun.text s.1 s.2 false)) := by
  induction parts with
  | nil => intro i; rfl
  | cons p rest ih =>
    intro i
    rw [compactSegs, specSegsAux, List.filterMap_cons, ih (i + 1)]
    rcases Nat.mod_two_eq_zero_or_one i with h | h <;>
      by_cases hp : p = [] <;> simp [h, hp]

theorem bulletSegs_eq_spec (parts : List (List Char)) :
    ∀ i, bulletSegs i parts
      = (specSegsAux i parts).filterMap
          (fun s => if s.1 = [] then none
                    else some (DRun.text s.1 s.2 false)) := by
  induction parts with
  | nil => intro i; rfl
  | cons p rest ih =>
    intro i
    rw [bulletSegs, specSegsAux, List.filterMap_cons, ih (i + 1)]
    by_cases hp : p = [] <;> simp [hp]

-- When the final segment sits at an odd index, each loop ends with that
-- segment as a bold run (for `add_bullet`, provided it is non-empty).

theorem compactSegs_getLast (parts : List (List Char)) :
    ∀ i seg, parts.getLast? = some seg → (i + parts.length) % 2 = 0 →
      (compactSegs i parts).getLast? = some (DRun.text seg true false) := by
  induction parts with
  | nil => intro i seg h; simp at h
  | cons p rest ih =>
    intro i seg hlast hpar
    cases rest with
    | nil =>
      simp only [List.getLast?_singleton, Option.some.injEq] at hlast
      have hi : i % 2 = 1 := by simp at hpar; omega
      subst hlast
      simp [compactSegs, hi]
    | cons q rest' =>
      rw [List.getLast?_cons_cons] at hlast
      have hrec := ih (i + 1) seg hlast (by simp at hpar ⊢; omega)
      rw [compactSegs, List.getLast?_append, hrec]
      rfl

theorem bulletSegs_getLast (parts : List (List Char)) :
    ∀ i seg, parts.getLast? = some seg → seg ≠ [] →
      (i + parts.length) % 2 = 0 →
      (bulletSegs i parts).getLast? = some (DRun.text seg true false) := by
  induction parts with
  | nil => intro i seg h; simp at h
  | cons p rest ih =>
    intro i seg hlast hne hpar
    cases rest with
    | nil =>
      simp only [List.getLast?_singleton, Option.some.injEq] at hlast
      have hi : i % 2 = 1 := by simp at hpar; omega
      subst hlast
      simp [bulletSegs, hne, hi]
    | cons q rest' =>
      rw [List.getLast?_cons_cons] at hlast
      have hrec := ih (i + 1) seg hlast hne (by simp at hpar ⊢; omega)
      rw [bulletSegs, List.getLast?_append, hrec]
      rfl

/-- C1: both bulleted-item builders (`add_compact_bullet` of
create_resume_twocolumn3.py and `add_bullet` of
create_resume_rajnish_template.py) emit, after the bullet-glyph run, the
`'**'`-split segments styled by the parity of their split index (even =
plain, odd = bold); each builder drops only empty segments (the compact
one keeps empty odd segments as empty bold runs).  With an odd number of
delimiters — an even number of split segments — the trailing segment is
emitted last as a bold run, not an error.  On `"Built **React** apps"`
the runs after the glyph are exactly `"Built "`, bold `"React"`,
`" apps"`. -/
theorem c1_bullet_bold_alternation :
    (∀ text, hasBB text = true →
        (add_compact_bullet text).tail
          = (specSegments text).filterMap
              (fun s => if s.1 = [] ∧ s.2 = false then none
                        else some (DRun.text s.1 s.2 false)))
    ∧ (∀ text, hasBB text = true →
        (add_bullet text).tail
          = (specSegments text).filterMap
              (fun s => if s.1 = [] then none
                        else some (DRun.text s.1 s.2 false)))
    ∧ (∀ text, hasBB text = false →
        (add_compact_bullet text).tail = [DRun.text text false false]
        ∧ (add_bullet text).tail = [DRun.text text false false]
        ∧ specSegments text = [(text, false)])
    ∧ (∀ text seg, (splitBB text).getLast? = some seg →
        (splitBB text).length % 2 = 0 →
        (add_compact_bullet text).getLast? = some (DRun.text seg true false)
        ∧ (seg ≠ [] →
            (add_bullet text).getLast? = some (DRun.text seg true false)))
    ∧ add_compact_bullet ("Built **React** apps".data)
        = [DRun.text ['•', ' '] true false,
           DRun.text ("Built ".data) false false,
           DRun.text ("React".data) true false,
           DRun.text (" apps".data) false false]
    ∧ add_bullet ("Built **React** apps".data)
        = [DRun.text ['•', ' '] true false,
           DRun.text ("Built ".data) false false,
           DRun.text ("React".data) true false,
           DRun.text (" apps".data) false false] := by
  refine ⟨?_, ?_, ?_, ?_, by decide, by decide⟩
  · intro text h
    rw [add_compact_bullet, if_pos h, specSegments]
    exact (compactSegs_eq_spec _ 0).symm ▸ rfl
  · intro text h
    rw [add_bullet, if_pos h, specSegments]
    exact (bulletSegs_eq_spec _ 0).symm ▸ rfl
  · intro text h
    rw [add_compact_bullet, add_bullet, if_neg (by simp [h]),
      if_neg (by simp [h]), specSegments, splitBB_of_hasBB_eq_false h]
    exact ⟨rfl, rfl, rfl⟩
  · intro text seg hlast hpar
    have hlen1 : (splitBB text).length ≠ 1 := by
      intro hc; rw [hc] at hpar; simp at hpar
    have hbb : hasBB text = true := hasBB_of_length_ne_one hlen1
    constructor
    · rw [add_compact_bullet, if_pos hbb]
      have := compactSegs_getLast (splitBB text) 0 seg hlast (by simpa using hpar)
      rw [show (DRun.text ['•', ' '] true false ::
            compactSegs 0 (splitBB text))
          = [DRun.text ['•', ' '] true false] ++ compactSegs 0 (splitBB text)
          from rfl, List.getLast?_append, this]
      rfl
    · intro hne
      rw [add_bullet, if_pos hbb]
      have := bulletSegs_getLast (splitBB text) 0 seg hlast hne
        (by simpa using hpar)
      rw [show (DRun.text ['•', ' '] true false ::
            bulletSegs 0 (splitBB text))
          = [DRun.text ['•', ' '] true false] ++ bulletSegs 0 (splitBB text)
          from rfl, List.getLast?_append, this]
      rfl

/-- Witness for C1: the refinement instantiated on the spec's concrete
scenario string, whose delimiter occurrence discharges the hypothesis. -/
theorem c1_witness :
    (add_compact_bullet ("Built **React** apps".data)).tail
      = (specSegments ("Built **React** apps".data)).filterMap
          (fun s => if s.1 = [] ∧ s.2 = false then none
                    else some (DRun.text s.1 s.2 false)) :=
  c1_bullet_bold_alternation.1 ("Built **React** apps".data) (by decide)

/-! ## Converter (convert_to_pdf.py) -/

/-- Outcome of one `subprocess.run([lo_path, ...], timeout=30)` call:
the process completed (with an exit code, and with the expected PDF now
present or not), timed out (`subprocess.TimeoutExpired`), the binary was
missing (`FileNotFoundError`), or some other exception escaped the inner
`except` clause. -/
inductive SpawnOutcome where
  | completed (returncode : Int) (pdfExists : Bool)
  | timedOut
  | missingBinary
  | raisedOther
  deriving DecidableEq, Repr

/-- Outcome of the docx2pdf attempt: the `from docx2pdf import convert`
line raised (e.g. the package is absent), `convert(...)` raised after the
progress message was printed, or `convert(...)` returned with the PDF
present or not. -/
inductive NativeOutcome where
  | importFails
  | convertRaises
  | completes (pdfExists : Bool)
  deriving DecidableEq, Repr

/-- Observable actions of `convert_docx_to_pdf`, in program order: each
`print` and each `subprocess.run` spawn (with the timeout it passes). -/
inductive Event where
  | errFileNotFound
  | nativeConvertMsg
  | successMsg
  | docx2pdfFailedMsg
  | spawnAttempt (i : Nat) (timeoutSecs : Nat)
  | libreofficeFailedMsg
  | remediationMsg
  deriving DecidableEq, Repr

/-- How the `for lo_path in libreoffice_paths` loop ended: success at
candidate index `i`, the list was exhausted, or an unexpected exception
aborted the loop (caught by the outer `except`). -/
inductive LoopResult where
  | succeeded (i : Nat)
  | exhausted
  | aborted
  deriving DecidableEq, Repr

/-- The candidate LibreOffice binaries, in the order the code tries them. -/
def libreoffice_paths : List String :=
  ["/Applications/LibreOffice.app/Contents/MacOS/soffice",
   "libreoffice", "soffice"]

/-- The `for lo_path in libreoffice_paths` loop, with candidate `i`'s
spawn outcome supplied by `spawn`.  A completed process succeeds iff its
exit code is zero and the PDF exists; `FileNotFoundError` and
`TimeoutExpired` hit the `continue`; any other exception propagates to
the outer handler, which prints and stops trying candidates. -/
def loopExternal (spawn : Nat → SpawnOutcome) :
    List String → Nat → List Event × LoopResult
  | [], _ => ([], .exhausted)
  | _ :: rest, i =>
    match spawn i with
    | .completed rc pdf =>
      if rc = 0 ∧ pdf = true then
        ([.spawnAttempt i 30, .successMsg], .succeeded i)
      else
        let r := loopExternal spawn rest (i + 1)
        (.spawnAttempt i 30 :: r.1, r.2)
    | .timedOut =>
      let r := loopExternal spawn rest (i + 1)
      (.spawnAttempt i 30 :: r.1, r.2)
    | .missingBinary =>
      let r := loopExternal spawn rest (i + 1)
      (.spawnAttempt i 30 :: r.1, r.2)
    | .raisedOther => ([.spawnAttempt i 30, .libreofficeFailedMsg], .aborted)

/-- The environment `convert_docx_to_pdf` runs against: whether the input
DOCX exists, how the docx2pdf attempt goes, and how each spawned
candidate behaves. -/
structure ConvEnv where
  docxExists : Bool
  native : NativeOutcome
  spawn : Nat → SpawnOutcome

/-- The prints of the docx2pdf `try` block and its `except` clause. -/
def nativeEvents : NativeOutcome → List Event
  | .importFails => [.docx2pdfFailedMsg]
  | .convertRaises => [.nativeConvertMsg, .docx2pdfFailedMsg]
  | .completes _ => [.nativeConvertMsg]

/-- Embedding of `convert_docx_to_pdf()` of convert_to_pdf.py: its emitted events in
program order, paired with its return value.  Missing input returns
`False` at once; a successful docx2pdf conversion returns `True`;
otherwise the LibreOffice candidate loop runs, and if it does not
succeed the multi-option remediation block is printed and `False` is
returned (normal return, nothing raised). -/
def convert_docx_to_pdf (env : ConvEnv) : List Event × Bool :=
  if env.docxExists = false then ([.errFileNotFound], false)
  else if env.native = .completes true then
    (nativeEvents env.native ++ [.successMsg], true)
  else
    let r := loopExternal env.spawn libreoffice_paths 0
    match r.2 with
    | .succeeded _ => (nativeEvents env.native ++ r.1, true)
    | .exhausted => (nativeEvents env.native ++ r.1 ++ [.remediationMsg], false)
    | .aborted => (nativeEvents env.native ++ r.1 ++ [.remediationMsg], false)

/-- The candidate indices spawned, in order, within an event trace. -/
def attemptIdx (evs : List Event) : List Nat :=
  evs.filterMap fun e =>
    match e with
    | .spawnAttempt i _ => some i
    | _ => none

-- The candidate loop always spawns the head candidate first.

theorem loopExternal_mem_head (spawn : Nat → SpawnOutcome) (p : String)
    (ps : List String) (i : Nat) :
    Event.spawnAttempt i 30 ∈ (loopExternal spawn (p :: ps) i).1 := by
  rw [loopExternal]
  cases h : spawn i with
  | completed rc pdf =>
    dsimp only
    split <;> simp
  | timedOut => simp
  | missingBinary => simp
  | raisedOther => simp

-- The spawned candidate indices form the contiguous range that starts at
-- the initial index: no candidate is ever spawned twice.

theorem loopExternal_idx (spawn : Nat → SpawnOutcome) :
    ∀ (ps : List String) (i : Nat),
      ∃ k, k ≤ ps.length
        ∧ attemptIdx (loopExternal spawn ps i).1 = List.range' i k := by
  intro ps
  induction ps with
  | nil => intro i; exact ⟨0, by simp, rfl⟩
  | cons p rest ih =>
    intro i
    rw [loopExternal]
    cases h : spawn i with
    | completed rc pdf =>
      dsimp only
      split
      · exact ⟨1, by simp, by simp [attemptIdx]⟩
      · obtain ⟨k, hk, hidx⟩ := ih (i + 1)
        refine ⟨k + 1, by simp; omega, ?_⟩
        simp only [attemptIdx, List.filterMap_cons] at hidx ⊢
        rw [List.range'_succ]
        simpa using hidx
    | timedOut =>
      obtain ⟨k, hk, hidx⟩ := ih (i + 1)
      refine ⟨k + 1, by simp; omega, ?_⟩
      simp only [attemptIdx, List.filterMap_cons] at hidx ⊢
      rw [List.range'_succ]
      simpa using hidx
    | missingBinary =>
      obtain ⟨k, hk, hidx⟩ := ih (i + 1)
      refine ⟨k + 1, by simp; omega, ?_⟩
      simp only [attemptIdx, List.filterMap_cons] at hidx ⊢
      rw [List.range'_succ]
      simpa using hidx
    | raisedOther => exact ⟨1, by simp, by simp [attemptIdx]⟩

-- Every spawn the loop performs passes the 30-second timeout.

theorem loopExternal_timeout30 (spawn : Nat → SpawnOutcome) :
    ∀ (ps : List String) (i j t : Nat),
      Event.spawnAttempt j t ∈ (loopExternal spawn ps i).1 → t = 30 := by
  intro ps
  induction ps with
  | nil => intro i j t h; simp [loopExternal] at h
  | cons p rest ih =>
    intro i j t h
    cases hsp : spawn i with
    | completed rc pdf =>
      rw [loopExternal, hsp] at h
      dsimp only at h
      split at h
      · simp only [List.mem_cons, List.not_mem_nil, or_false] at h
        rcases h with h | h
        · injection h with h1 h2
        · exact absurd h (by simp)
      · simp only [List.mem_cons] at h
        rcases h with h | h
        · injection h with h1 h2
        · exact ih (i + 1) j t h
    | timedOut =>
      rw [loopExternal, hsp] at h
      dsimp only at h
      simp only [List.mem_cons] at h
      rcases h with h | h
      · injection h with h1 h2
      · exact ih (i + 1) j t h
    | missingBinary =>
      rw [loopExternal, hsp] at h
      dsimp only at h
      simp only [List.mem_cons] at h
      rcases h with h | h
      · injection h with h1 h2
      · exact ih (i + 1) j t h
    | raisedOther =>
      rw [loopExternal, hsp] at h
      simp only [List.mem_cons, List.not_mem_nil, or_false] at h
      rcases h with h | h
      · injection h with h1 h2
      · exact absurd h (by simp)

-- Success is declared only with exit code zero and the PDF on disk.

theorem loopExternal_success (spawn : Nat → SpawnOutcome) :
    ∀ (ps : List String) (i j : Nat),
      (loopExternal spawn ps i).2 = .succeeded j →
      spawn j = .completed 0 true := by
  intro ps
  induction ps with
  | nil => intro i j h; simp [loopExternal] at h
  | cons p rest ih =>
    intro i j h
    cases hsp : spawn i with
    | completed rc pdf =>
      rw [loopExternal, hsp] at h
      dsimp only at h
      split at h
      · rename_i hcond
        dsimp only at h
        injection h with h1
        subst h1
        rw [hsp, hcond.1, hcond.2]
      · exact ih (i + 1) j h
    | timedOut =>
      rw [loopExternal, hsp] at h
      exact ih (i + 1) j h
    | missingBinary =>
      rw [loopExternal, hsp] at h
      exact ih (i + 1) j h
    | raisedOther =>
      rw [loopExternal, hsp] at h
      simp at h

-- A timed-out or missing candidate makes the loop advance to the next
-- candidate index, which then gets spawned as well.

theorem loopExternal_advance (spawn : Nat → SpawnOutcome) :
    ∀ (ps : List String) (i j t : Nat),
      Event.spawnAttempt j t ∈ (loopExternal spawn ps i).1 →
      (spawn j = .timedOut ∨ spawn j = .missingBinary) →
      j + 1 < i + ps.length →
      Event.spawnAttempt (j + 1) 30 ∈ (loopExternal spawn ps i).1 := by
  intro ps
  induction ps with
  | nil => intro i j t h; simp [loopExternal] at h
  | cons p rest ih =>
    intro i j t h hout hlt
    cases hsp : spawn i with
    | completed rc pdf =>
      rw [loopExternal, hsp] at h ⊢
      dsimp only at h ⊢
      split at h <;> rename_i hcond
      · rw [if_pos hcond]
        simp only [List.mem_cons, List.not_mem_nil, or_false] at h
        rcases h with h | h
        · injection h with h1 h2
          subst h1
          rw [hsp] at hout
          rcases hout with ho | ho <;> exact absurd ho (by simp)
        · exact absurd h (by simp)
      · rw [if_neg hcond]
        simp only [List.mem_cons] at h
        rcases h with h | h
        · injection h with h1 h2
          subst h1
          rw [hsp] at hout
          rcases hout with ho | ho <;> exact absurd ho (by simp)
        · exact List.mem_cons_of_mem _
            (ih (i + 1) j t h hout (by simp at hlt ⊢; omega))
    | timedOut =>
      rw [loopExternal, hsp] at h ⊢
      dsimp only at h ⊢
      simp only [List.mem_cons] at h
      rcases h with h | h
      · injection h with h1 h2
        subst h1
        cases rest with
        | nil => exact absurd hlt (by simp)
        | cons q rest' =>
          exact List.mem_cons_of_mem _
            (loopExternal_mem_head spawn q rest' (j + 1))
      · exact List.mem_cons_of_mem _
          (ih (i + 1) j t h hout (by simp at hlt ⊢; omega))
    | missingBinary =>
      rw [loopExternal, hsp] at h ⊢
      dsimp only at h ⊢
      simp only [List.mem_cons] at h
      rcases h with h | h
      · injection h with h1 h2
        subst h1
        cases rest with
        | nil => exact absurd hlt (by simp)
        | cons q rest' =>
          exact List.mem_cons_of_mem _
            (loopExternal_mem_head spawn q rest' (j + 1))
      · exact List.mem_cons_of_mem _
          (ih (i + 1) j t h hout (by simp at hlt ⊢; omega))
    | raisedOther =>
      rw [loopExternal, hsp] at h ⊢
      simp only [List.mem_cons, List.not_mem_nil, or_false] at h
      rcases h with h | h
      · injection h with h1 h2
        subst h1
        rw [hsp] at hout
        rcases hout with ho | ho <;> exact absurd ho (by simp)
      · exact absurd h (by simp)

/-- C2: over every environment, the converter's candidate loop spawns each
candidate at most once (the spawned indices are the contiguous range from
0, hence duplicate-free), every spawn passes the 30-second timeout,
success at a candidate is declared only when that candidate's process
exited zero with the expected PDF present, and after a timeout or a
missing binary the next candidate (when one remains) is spawned too. -/
theorem c2_converter_candidates (spawn : Nat → SpawnOutcome) :
    (attemptIdx (loopExternal spawn libreoffice_paths 0).1).Nodup
    ∧ (∀ j t, Event.spawnAttempt j t ∈ (loopExternal spawn libreoffice_paths 0).1 →
        t = 30)
    ∧ (∀ j, (loopExternal spawn libreoffice_paths 0).2 = .succeeded j →
        spawn j = .completed 0 true)
    ∧ (∀ j t, Event.spawnAttempt j t ∈ (loopExternal spawn libreoffice_paths 0).1 →
        (spawn j = .timedOut ∨ spawn j = .missingBinary) →
        j + 1 < libreoffice_paths.length →
        Event.spawnAttempt (j + 1) 30 ∈ (loopExternal spawn libreoffice_paths 0).1) := by
  refine ⟨?_, fun j t h => loopExternal_timeout30 spawn _ 0 j t h,
    fun j h => loopExternal_success spawn _ 0 j h,
    fun j t h hto hlt => loopExternal_advance spawn _ 0 j t h hto (by simpa using hlt)⟩
  obtain ⟨k, _, hidx⟩ := loopExternal_idx spawn libreoffice_paths 0
  rw [hidx]
  exact List.nodup_range' 0 k

/-- Witness for C2: with every candidate timing out, candidate 0 is
spawned, times out, and the loop indeed advances to spawn candidate 1. -/
theorem c2_witness :
    Event.spawnAttempt 1 30
      ∈ (loopExternal (fun _ => SpawnOutcome.timedOut) libreoffice_paths 0).1 :=
  (c2_converter_candidates (fun _ => SpawnOutcome.timedOut)).2.2.2 0 30 (by decide)
    (Or.inl rfl) (by decide)

-- The candidate loop itself never prints the remediation block.

theorem loopExternal_no_remediation (spawn : Nat → SpawnOutcome) :
    ∀ (ps : List String) (i : Nat),
      Event.remediationMsg ∉ (loopExternal spawn ps i).1 := by
  intro ps
  induction ps with
  | nil => intro i; simp [loopExternal]
  | cons p rest ih =>
    intro i
    cases hsp : spawn i with
    | completed rc pdf =>
      rw [loopExternal, hsp]
      dsimp only
      split
      · simp
      · intro hm
        rcases List.mem_cons.mp hm with hm | hm
        · exact absurd hm (by simp)
        · exact ih (i + 1) hm
    | timedOut =>
      rw [loopExternal, hsp]
      intro hm
      rcases List.mem_cons.mp hm with hm | hm
      · exact absurd hm (by simp)
      · exact ih (i + 1) hm
    | missingBinary =>
      rw [loopExternal, hsp]
      intro hm
      rcases List.mem_cons.mp hm with hm | hm
      · exact absurd hm (by simp)
      · exact ih (i + 1) hm
    | raisedOther =>
      rw [loopExternal, hsp]
      simp

-- A successful candidate's index lies within the candidate list.

theorem loopExternal_success_lt (spawn : Nat → SpawnOutcome) :
    ∀ (ps : List String) (i j : Nat),
      (loopExternal spawn ps i).2 = .succeeded j → j < i + ps.length := by
  intro ps
  induction ps with
  | nil => intro i j h; simp [loopExternal] at h
  | cons p rest ih =>
    intro i j h
    cases hsp : spawn i with
    | completed rc pdf =>
      rw [loopExternal, hsp] at h
      dsimp only at h
      split at h
      · dsimp only at h
        injection h with h1
        subst h1
        simp only [List.length_cons]
        omega
      · have := ih (i + 1) j h
        simp only [List.length_cons]
        omega
    | timedOut =>
      rw [loopExternal, hsp] at h
      have := ih (i + 1) j h
      simp only [List.length_cons]
      omega
    | missingBinary =>
      rw [loopExternal, hsp] at h
      have := ih (i + 1) j h
      simp only [List.length_cons]
      omega
    | raisedOther =>
      rw [loopExternal, hsp] at h
      simp at h

/-- C5: when the input DOCX exists, docx2pdf does not succeed and no
external candidate succeeds (exit code zero with the PDF present), then
`convert_docx_to_pdf` returns `False` — a normal return, every branch of
the model is a value — and its event trace contains the static
multi-option remediation block exactly once. -/
theorem c5_total_failure_remediation (env : ConvEnv)
    (hdocx : env.docxExists = true)
    (hnat : env.native ≠ NativeOutcome.completes true)
    (hspawn : ∀ i, i < libreoffice_paths.length →
      env.spawn i ≠ SpawnOutcome.completed 0 true) :
    (convert_docx_to_pdf env).2 = false
    ∧ (convert_docx_to_pdf env).1.count Event.remediationMsg = 1 := by
  rcases hr : loopExternal env.spawn libreoffice_paths 0 with ⟨evs, res⟩
  have hnotmem : Event.remediationMsg ∉ evs := by
    have hnm := loopExternal_no_remediation env.spawn libreoffice_paths 0
    rw [hr] at hnm
    exact hnm
  have hcnt0 : (nativeEvents env.native).count Event.remediationMsg = 0 := by
    cases env.native <;> rfl
  simp only [convert_docx_to_pdf,
    if_neg (show ¬env.docxExists = false by simp [hdocx]), if_neg hnat, hr]
  cases res with
  | succeeded j =>
    have hj : j < 0 + libreoffice_paths.length :=
      loopExternal_success_lt env.spawn libreoffice_paths 0 j (by rw [hr])
    have hsj : env.spawn j = SpawnOutcome.completed 0 true :=
      loopExternal_success env.spawn libreoffice_paths 0 j (by rw [hr])
    exact absurd hsj (hspawn j (by simpa using hj))
  | exhausted =>
    refine ⟨rfl, ?_⟩
    rw [List.count_append, List.count_append, hcnt0,
      List.count_eq_zero.mpr hnotmem]
    rfl
  | aborted =>
    refine ⟨rfl, ?_⟩
    rw [List.count_append, List.count_append, hcnt0,
      List.count_eq_zero.mpr hnotmem]
    rfl

/-- Environment in which docx2pdf cannot even be imported and every
spawned candidate times out: no conversion mechanism is available. -/
def envAllFail : ConvEnv :=
  { docxExists := true
    native := NativeOutcome.importFails
    spawn := fun _ => SpawnOutcome.timedOut }

/-- Witness for C5: with the input present and no working mechanism, the
converter returns `False` and prints the remediation block once. -/
theorem c5_witness :
    (convert_docx_to_pdf envAllFail).2 = false
    ∧ (convert_docx_to_pdf envAllFail).1.count Event.remediationMsg = 1 :=
  c5_total_failure_remediation envAllFail rfl (by decide) (fun i _ => by simp [envAllFail])

/-- C10: when the input DOCX is absent, `convert_docx_to_pdf` emits the
file-not-found error and returns `False` immediately: the whole trace is
that single message — no docx2pdf attempt, no candidate spawn and no
remediation block — whatever the rest of the environment offers. -/
theorem c10_missing_input_short_circuit (env : ConvEnv)
    (h : env.docxExists = false) :
    convert_docx_to_pdf env = ([Event.errFileNotFound], false) := by
  rw [convert_docx_to_pdf, if_pos h]

/-- Environment whose input DOCX is absent even though every conversion
mechanism would succeed. -/
def envNoDocx : ConvEnv :=
  { docxExists := false
    native := NativeOutcome.completes true
    spawn := fun _ => SpawnOutcome.completed 0 true }

/-- Witness for C10: with the input absent, nothing else is attempted. -/
theorem c10_witness :
    convert_docx_to_pdf envNoDocx = ([Event.errFileNotFound], false) :=
  c10_missing_input_short_circuit envNoDocx rfl

/-! ## Icon+text rows, section headers, grid, margins, append-only blocks -/

/-- The non-breaking space written by `text.replace` in the email
branch (U+00A0). -/
def nbsp : Char := Char.ofNat 0xA0

/-- The thin-space separator run placed after an icon (U+2009). -/
def thinsp : Char := Char.ofNat 0x2009

/-- Embedding of the email branch of Python's
`text.replace(' ', chr(0xA0))`: every space becomes a non-breaking
space. -/
def replaceSpaceNbsp (text : List Char) : List Char :=
  text.map fun c => if c = ' ' then nbsp else c

/-- Python's `str.upper` on the ASCII header labels the sources pass. -/
def pyUpper (text : List Char) : List Char := text.map Char.toUpper

/-- The runs of one paragraph built by `add_sidebar_text_with_icon`
(create_resume_twocolumn3.py), split by construction phase: the optional
icon run (skipped when `os.path.exists(icon_path)` is false; an empty run
is left behind when `add_picture` raises), the small spacer run, and the
text run with the email treatment. -/
structure IconTextRow where
  iconRuns : List DRun
  spaceRun : DRun
  textRun : DRun
  deriving DecidableEq, Repr

/-- Embedding of `add_sidebar_text_with_icon(cell, icon_path, text, ...)` of
create_resume_twocolumn3.py.  When the text contains `'@'` its spaces
are replaced by non-breaking spaces and the run gets `w:noBreak`;
otherwise the text is emitted verbatim with no no-break mark. -/
def add_sidebar_text_with_icon (iconExists pictureLoads : Bool)
    (icon_path : String) (text : List Char) : IconTextRow :=
  { iconRuns :=
      if iconExists then
        (if pictureLoads then [DRun.image icon_path] else [DRun.emptyR])
      else []
    spaceRun := DRun.text [' '] false false
    textRun :=
      if text.contains '@' then
        DRun.text (replaceSpaceNbsp text) false true
      else DRun.text text false false }

/-- The paragraph's full run list, in emission order. -/
def sidebarRowRuns (r : IconTextRow) : List DRun :=
  r.iconRuns ++ [r.spaceRun, r.textRun]

/-- The `ICON_FILES` mapping of create_resume_rajnish_template.py. -/
def ICON_FILES : List (String × String) :=
  [("profile", "profile.png"), ("skills", "skill.png"),
   ("education", "education.png"), ("certificates", "certificate.png"),
   ("findmeonline", "findme.png"), ("experience", "experience.png"),
   ("projects", "project.png"), ("external_link", "link.png"),
   ("location", "location-pin.png"), ("email", "email.png"),
   ("phone", "call.png")]

/-- Embedding of `get_icon_path(icon_key)` of create_resume_rajnish_template.py, with
the filesystem (`os.path.exists`) and `SCRIPT_DIR` passed explicitly:
`None` for an unknown key, the joined path when the file exists, `None`
otherwise. -/
def get_icon_path (fsExists : String → Bool) (script_dir icon_key : String) :
    Option String :=
  match ICON_FILES.lookup icon_key with
  | none => none
  | some icon_file =>
    let icon_path := script_dir ++ "/icon/" ++ icon_file
    if fsExists icon_path then some icon_path else none

/-- The `SECTION_ACCENT_COLOR` constant of create_resume_rajnish_template.py. -/
def SECTION_ACCENT_COLOR : String := "2D5A5A"

/-- What `add_section_header` builds: the header paragraph's runs
(optional icon + thin-space, then the label) and the border paragraph's
right indent (which sets the accent rule's length) and colour. -/
structure SectionHeaderOut where
  headerRuns : List DRun
  borderRightIndentEMU : Int
  borderColor : String
  deriving DecidableEq, Repr

/-- Embedding of `add_section_header(cell, text, icon_key, is_left_column)` of
create_resume_rajnish_template.py.  The icon is added only when
`get_icon_path` resolves (otherwise the paragraph keeps only the text
run); the label run is `text.upper()` in bold; the border paragraph's
right indent is `Inches(1.5)` in the left column and `Inches(0.5)` in
the right column. -/
def add_section_header (fsExists : String → Bool) (pictureLoads : Bool)
    (script_dir : String) (icon_key : Option String) (text : List Char)
    (is_left_column : Bool) : SectionHeaderOut :=
  { headerRuns :=
      (match icon_key with
       | none => []
       | some k =>
         match get_icon_path fsExists script_dir k with
         | none => []
         | some path =>
           if pictureLoads then
             [DRun.image path, DRun.text [thinsp] false false]
           else [DRun.emptyR]) ++ [DRun.text (pyUpper text) true false]
    borderRightIndentEMU :=
      if is_left_column then inchesEMU 150 else inchesEMU 50
    borderColor := SECTION_ACCENT_COLOR }

/-- What `add_sidebar_header` (create_resume_twocolumn3.py) puts in its
paragraph: one bold uppercase run, at 12pt when `is_main` else 10pt. -/
structure SidebarHeaderOut where
  run : DRun
  fontSizeCentiPt : Nat
  deriving DecidableEq, Repr

/-- Embedding of `add_sidebar_header(cell, text, is_main)` of
create_resume_twocolumn3.py. -/
def add_sidebar_header (text : List Char) (is_main : Bool) :
    SidebarHeaderOut :=
  { run := DRun.text (pyUpper text) true false
    fontSizeCentiPt := if is_main then 1200 else 1000 }

/-- One item of the `for i, (icon_key, text) in enumerate(items)` loop of
`add_contact_header_centered` (create_resume_rajnish_template.py): the
optional icon runs, the text run (marked `w:noBreak` iff the text
contains `'@'` — the text itself is emitted verbatim), and the
separator runs added between items. -/
structure ContactItem where
  iconRuns : List DRun
  textRun : DRun
  sepRuns : List DRun
  deriving DecidableEq, Repr

/-- One contact item of `add_contact_header_centered`. -/
def contactItem (fsExists : String → Bool) (pictureLoads : Bool)
    (script_dir icon_key : String) (text : List Char) (isLast : Bool) :
    ContactItem :=
  { iconRuns :=
      match get_icon_path fsExists script_dir icon_key with
      | none => []
      | some path =>
        if pictureLoads then
          [DRun.image path, DRun.text [thinsp] false false]
        else [DRun.emptyR]
    textRun := DRun.text text false (text.contains '@')
    sepRuns := if isLast then [] else [DRun.text [' ', ' '] false false] }

/-- C3 counterexample: `add_contact_header_centered` marks an `'@'` text
non-breakable but does NOT replace its spaces — on the spaced address
`"a b@c"` the emitted run keeps the plain space, though the claimed
transformation would have changed it. -/
theorem c3_counterexample :
    (contactItem (fun _ => false) false "." "email" ("a b@c".data)
        true).textRun
      = DRun.text ("a b@c".data) false true
    ∧ replaceSpaceNbsp ("a b@c".data) ≠ ("a b@c".data) := by
  exact ⟨by decide, by decide⟩

/-- C3 (amended): in `add_sidebar_text_with_icon` a text containing `'@'`
has all its spaces replaced by non-breaking spaces and its run marked
`w:noBreak`, and a text without `'@'` gets neither treatment; in
`add_contact_header_centered` a text containing `'@'` only gets the
`w:noBreak` mark (the content stays verbatim), and a text without `'@'`
gets neither treatment. -/
theorem c3_email_nobreak (iconExists pictureLoads : Bool) (p : String)
    (fsE : String → Bool) (sdir key : String) (text : List Char)
    (isLast : Bool) :
    (text.contains '@' = true →
      (add_sidebar_text_with_icon iconExists pictureLoads p text).textRun
        = DRun.text (replaceSpaceNbsp text) false true
      ∧ (contactItem fsE pictureLoads sdir key text isLast).textRun
        = DRun.text text false true)
    ∧ (text.contains '@' = false →
      (add_sidebar_text_with_icon iconExists pictureLoads p text).textRun
        = DRun.text text false false
      ∧ (contactItem fsE pictureLoads sdir key text isLast).textRun
        = DRun.text text false false) := by
  constructor
  · intro h
    have hm : '@' ∈ text := by simpa using h
    exact ⟨by simp [add_sidebar_text_with_icon, hm],
      by simp [contactItem, hm]⟩
  · intro h
    have hm : '@' ∉ text := by simpa using h
    exact ⟨by simp [add_sidebar_text_with_icon, hm],
      by simp [contactItem, hm]⟩

/-- Witness for C3: the repository's own email string contains `'@'` and
receives exactly the amended treatments. -/
theorem c3_witness :
    (add_sidebar_text_with_icon false false "email.png"
        ("prabhatkumar944@gmail.com".data)).textRun
      = DRun.text (replaceSpaceNbsp ("prabhatkumar944@gmail.com".data))
          false true
    ∧ (contactItem (fun _ => false) false "." "email"
        ("prabhatkumar944@gmail.com".data) true).textRun
      = DRun.text ("prabhatkumar944@gmail.com".data) false true :=
  (c3_email_nobreak false false "email.png" (fun _ => false) "." "email"
    ("prabhatkumar944@gmail.com".data) true).1 (by decide)

/-- C4: with an icon path that does not resolve, every icon-bearing block
builder still appends its paragraph with the text run and no image run —
nothing raises (the model functions return for every environment):
`add_sidebar_text_with_icon` emits only its spacer and text runs,
`get_icon_path` returns `None` on a filesystem with no files,
`add_section_header` keeps only its label run, and a contact item gets
no icon runs. -/
theorem c4_missing_icon_degrades (pl : Bool) (p : String) (text : List Char)
    (key sdir : String) (ik : Option String) (b isLast : Bool) :
    sidebarRowRuns (add_sidebar_text_with_icon false pl p text)
      = [DRun.text [' '] false false,
         (add_sidebar_text_with_icon false pl p text).textRun]
    ∧ (∀ path, DRun.image path
        ∉ sidebarRowRuns (add_sidebar_text_with_icon false pl p text))
    ∧ get_icon_path (fun _ => false) sdir key = none
    ∧ (add_section_header (fun _ => false) pl sdir ik text b).headerRuns
      = [DRun.text (pyUpper text) true false]
    ∧ (contactItem (fun _ => false) pl sdir key text isLast).iconRuns
      = [] := by
  have hg : ∀ k, get_icon_path (fun _ => false) sdir k = none := by
    intro k
    cases h : ICON_FILES.lookup k <;> simp [get_icon_path, h]
  refine ⟨rfl, ?_, hg key, ?_, ?_⟩
  · intro path
    by_cases hc : '@' ∈ text
    · simp [sidebarRowRuns, add_sidebar_text_with_icon, hc]
    · simp [sidebarRowRuns, add_sidebar_text_with_icon, hc]
  · cases ik with
    | none => rfl
    | some k => simp [add_section_header, hg k]
  · simp [contactItem, hg key]

/-- Witness for C4 at a concrete unresolved icon path and text. -/
theorem c4_witness :
    sidebarRowRuns (add_sidebar_text_with_icon false true "location.png"
        ("Gurugram, Haryana".data))
      = [DRun.text [' '] false false,
         (add_sidebar_text_with_icon false true "location.png"
            ("Gurugram, Haryana".data)).textRun]
    ∧ get_icon_path (fun _ => false) "." "location" = none :=
  ⟨(c4_missing_icon_degrades true "location.png" ("Gurugram, Haryana".data)
      "location" "." none false false).1,
   (c4_missing_icon_degrades true "location.png" ("Gurugram, Haryana".data)
      "location" "." none false false).2.2.1⟩

/-- C7: every section header's label run is the uppercase of the input
text in bold, and the accent rule below it is shorter in the left/sidebar
column than in the right/main column — the left column's border paragraph
carries the larger right indent (`Inches(1.5)` vs `Inches(0.5)`).
`add_sidebar_header` likewise emits a bold uppercase label run. -/
theorem c7_section_header_format (fsE : String → Bool) (pl : Bool)
    (sdir : String) (ik : Option String) (text : List Char) (b m : Bool) :
    (add_section_header fsE pl sdir ik text b).headerRuns.getLast?
      = some (DRun.text (pyUpper text) true false)
    ∧ (add_section_header fsE pl sdir ik text true).borderRightIndentEMU
      > (add_section_header fsE pl sdir ik text false).borderRightIndentEMU
    ∧ (add_section_header fsE pl sdir ik text true).borderRightIndentEMU
      = inchesEMU 150
    ∧ (add_section_header fsE pl sdir ik text false).borderRightIndentEMU
      = inchesEMU 50
    ∧ (add_sidebar_header text m).run = DRun.text (pyUpper text) true false := by
  refine ⟨?_, by norm_num [add_section_header, inchesEMU], rfl, rfl, rfl⟩
  simp only [add_section_header]
  exact List.getLast?_concat _

/-- The table style built inline by `create_twocolumn_resume`: column
widths, the six `w:tblBorders` entries, and the `w:shd` fill of each
cell. -/
structure TwoColGrid where
  leftWidthEMU : Int
  rightWidthEMU : Int
  borders : List (String × String)
  leftShading : Option String
  rightShading : Option String
  deriving DecidableEq, Repr

/-- The two-column grid construction of `create_twocolumn_resume`
(this straight-line fragment is identical in create_resume_twocolumn3.py
and create_resume_app_developer.py): widths `Inches(2.2)` / `Inches(5.3)`,
every border of the six set to `val="nil"`, a `w:shd` with
`fill="003366"` appended to the left cell's properties only — the right
cell gets no shading element. -/
def create_twocolumn_grid : TwoColGrid :=
  { leftWidthEMU := inchesEMU 220
    rightWidthEMU := inchesEMU 530
    borders :=
      [("top", "nil"), ("left", "nil"), ("bottom", "nil"),
       ("right", "nil"), ("insideH", "nil"), ("insideV", "nil")]
    leftShading := some "003366"
    rightShading := none }

/-- C6: the grid has widths 2.2in and 5.3in (in EMU), all six borders
`nil` (borderless), sidebar shading `003366` and no main-cell shading. -/
theorem c6_grid_shading :
    create_twocolumn_grid.leftWidthEMU = 2011680
    ∧ create_twocolumn_grid.rightWidthEMU = 4846320
    ∧ create_twocolumn_grid.borders.map Prod.fst
      = ["top", "left", "bottom", "right", "insideH", "insideV"]
    ∧ (create_twocolumn_grid.borders.map Prod.snd).all (· == "nil") = true
    ∧ create_twocolumn_grid.leftShading = some "003366"
    ∧ create_twocolumn_grid.rightShading = none :=
  ⟨rfl, rfl, rfl, rfl, rfl, rfl⟩

/-- A section's four page margins, in EMU. -/
structure PageSec where
  top_marginEMU : Int
  bottom_marginEMU : Int
  left_marginEMU : Int
  right_marginEMU : Int
  deriving DecidableEq, Repr

/-- Embedding of `set_margins(section, top, bottom, left, right)` (identical in
create_resume_twocolumn3.py and create_resume_rajnish_template.py):
assigns `Inches(v)` to each margin — no validation of any kind.
Arguments in hundredths of an inch. -/
def set_margins (s : PageSec) (top bottom left right : Int) : PageSec :=
  { top_marginEMU := inchesEMU top
    bottom_marginEMU := inchesEMU bottom
    left_marginEMU := inchesEMU left
    right_marginEMU := inchesEMU right }

/-- Spec-side `create_section`, following the spec's words: "fails with
`ConfigError` if margins are negative"; on non-negative margins it
behaves as the code's `set_margins`. -/
def set_margins_spec (s : PageSec) (top bottom left right : Int) :
    Except String PageSec :=
  if top < 0 ∨ bottom < 0 ∨ left < 0 ∨ right < 0 then
    Except.error "ConfigError"
  else Except.ok (set_margins s top bottom left right)

/-- C8 counterexample: called with a negative top margin, the code's
`set_margins` returns normally with the negative value stored
(`Inches(-1) = -914400` EMU), while the spec-side operation rejects the
same input with `ConfigError` — the code raises nothing. -/
theorem c8_counterexample :
    set_margins ⟨0, 0, 0, 0⟩ (-100) 30 30 15
      = ⟨-914400, 274320, 274320, 137160⟩
    ∧ set_margins_spec ⟨0, 0, 0, 0⟩ (-100) 30 30 15
      = Except.error "ConfigError" :=
  ⟨rfl, rfl⟩

/-- C8 (amended): `set_margins` performs no margin validation: for every
values, negative included, it returns normally with each margin set to
`Inches(value)`; it agrees with the spec's guarded operation exactly on
non-negative margins. -/
theorem c8_no_margin_validation (s : PageSec) (t b l r : Int) :
    set_margins s t b l r = ⟨t * 9144, b * 9144, l * 9144, r * 9144⟩
    ∧ (0 ≤ t → 0 ≤ b → 0 ≤ l → 0 ≤ r →
        set_margins_spec s t b l r = Except.ok (set_margins s t b l r)) := by
  refine ⟨rfl, fun ht hb hl hr => ?_⟩
  rw [set_margins_spec, if_neg (by push_neg; omega)]

/-- Witness for C8 at the margins the twocolumn driver actually passes,
`set_margins(section, 0.2, 0.3, 0.3, 0.15)`. -/
theorem c8_witness :
    set_margins ⟨0, 0, 0, 0⟩ 20 30 30 15 = ⟨182880, 274320, 274320, 137160⟩
    ∧ set_margins_spec ⟨0, 0, 0, 0⟩ 20 30 30 15
      = Except.ok (set_margins ⟨0, 0, 0, 0⟩ 20 30 30 15) := by
  have h := c8_no_margin_validation ⟨0, 0, 0, 0⟩ 20 30 30 15
  exact ⟨h.1, h.2 (by decide) (by decide) (by decide) (by decide)⟩

/-- A paragraph of a cell: its ordered runs. -/
structure Paragraph where
  runs : List DRun
  deriving DecidableEq, Repr

/-- A cell: its ordered paragraphs (insertion order is the visual
stacking order). -/
abbrev Cell := List Paragraph

/-- Embedding of `add_body_text(cell, text, size)` of
create_resume_rajnish_template.py: `cell.add_paragraph()` appends a
fresh paragraph after the existing ones, one plain run with the text is
added to it, and that paragraph is returned. -/
def add_body_text (cell : Cell) (text : List Char) : Cell × Paragraph :=
  let p : Paragraph := { runs := [DRun.text text false false] }
  (cell ++ [p], p)

/-- Embedding of `add_sidebar_text(cell, text, size, color)` of
create_resume_twocolumn3.py: the same appending shape. -/
def add_sidebar_text (cell : Cell) (text : List Char) : Cell × Paragraph :=
  let p : Paragraph := { runs := [DRun.text text false false] }
  (cell ++ [p], p)

/-- C9: the block builders only append: the new cell is the old cell with
exactly one paragraph added at the end, the old paragraphs survive
unchanged as the prefix, and the returned node is the appended
paragraph. -/
theorem c9_append_only (cell : Cell) (text : List Char) :
    ((add_body_text cell text).1
        = cell ++ [(add_body_text cell text).2]
      ∧ (add_body_text cell text).1.take cell.length = cell
      ∧ (add_body_text cell text).1.length = cell.length + 1
      ∧ (add_body_text cell text).1.getLast?
        = some (add_body_text cell text).2)
    ∧ ((add_sidebar_text cell text).1
        = cell ++ [(add_sidebar_text cell text).2]
      ∧ (add_sidebar_text cell text).1.take cell.length = cell
      ∧ (add_sidebar_text cell text).1.length = cell.length + 1
      ∧ (add_sidebar_text cell text).1.getLast?
        = some (add_sidebar_text cell text).2) := by
  refine ⟨⟨rfl, ?_, by simp [add_body_text], ?_⟩,
    ⟨rfl, ?_, by simp [add_sidebar_text], ?_⟩⟩
  · exact List.take_left cell _
  · exact List.getLast?_concat _
  · exact List.take_left cell _
  · exact List.getLast?_concat _
